import Mathlib

/-!
# Verification of `ipinfo` (jftuga/ipinfo) against its specification

This file shallowly embeds the core of `ipinfo.go` (identifier
normalization, DNS aggregation, the worker pools' arithmetic, the
geolocation response handling, report-row generation and the distance
formula) and proves or refutes the specification's claims about it.

Conventions:
* Go strings are modelled as `List Char` (`GoStr`); for ASCII data the
  bytewise order used by Go string comparison coincides with the
  character order used here.
* Fallible / panicking Go code is modelled with `Option`: `none` means
  the Go code panics (e.g. an out-of-range slice index).
* Network effects (DNS, HTTP) are modelled as explicit inputs: the list
  of DNS responses, and an `HttpResult` value per geolocation call.
* `float64` arithmetic inside `HaversineDistance` is modelled over `ℝ`
  (the idealization of IEEE arithmetic); the string formatting of a
  distance (`fmt.Sprintf("%.2f", miles)` fed by `strconv.ParseFloat`)
  is abstracted as an explicit function parameter `fmtDist` of the
  row-generation code, since kernel reasoning cannot evaluate floats.
-/

namespace IpInfo

/-- Go strings, modelled as lists of characters. -/
abbrev GoStr := List Char

/-- `strings.Contains(s, pat)` for a single-character pattern. -/
def containsChar (c : Char) : GoStr → Bool
  | [] => false
  | d :: rest => if d == c then true else containsChar c rest

/-- Does `pat` occur at the start of `s`? (helper for `containsSub`). -/
def startsWith : GoStr → GoStr → Bool
  | _, [] => true
  | [], _ :: _ => false
  | c :: s, p :: ps => c == p && startsWith s ps

/-- `strings.Contains(s, pat)`: does `pat` occur as a contiguous substring of `s`? -/
def containsSub (s pat : GoStr) : Bool :=
  startsWith s pat ||
    match s with
    | [] => false
    | _ :: rest => containsSub rest pat

/-- `strings.Index(s, c)` for a single-character separator: index of the first
occurrence of `c`, or `-1` when absent (Go returns an `int`). -/
def indexGo (c : Char) : GoStr → Int
  | [] => -1
  | d :: rest =>
    if d == c then 0
    else
      let r := indexGo c rest
      if r < 0 then -1 else r + 1

/-- `strings.Split(s, sep)` for a single-character separator.
Always returns at least one part. -/
def splitOnChar (c : Char) : GoStr → List GoStr
  | [] => [[]]
  | d :: rest =>
    let parts := splitOnChar c rest
    if d == c then [] :: parts
    else
      match parts with
      | [] => [[d]]
      | p :: ps => (d :: p) :: ps

/-- `strings.SplitN(s, sep, n)` for a single-character separator and `n ≥ 1`:
at most `n` parts, the last part being the unsplit remainder. -/
def splitNChar (c : Char) : Nat → GoStr → List GoStr
  | 0, _ => []
  | 1, s => [s]
  | _ + 2, [] => [[]]
  | n + 2, d :: rest =>
    if d == c then [] :: splitNChar c (n + 1) rest
    else
      match splitNChar c (n + 2) rest with
      | [] => [[d]]
      | p :: ps => (d :: p) :: ps

/-- Is `c` an ASCII digit (the regex character class `[0-9]`)? -/
def isDigit (c : Char) : Bool := '0' ≤ c && c ≤ '9'

/-- After consuming between 1 and 3 digits from the front of `s`, the possible
remainders (used to decide membership for the bounded repetition `[0-9]{1,3}`). -/
def digitRun13 (s : GoStr) : List GoStr :=
  match s with
  | [] => []
  | c :: rest =>
    if isDigit c then
      rest ::
        (match rest with
         | [] => []
         | d :: rest2 =>
           if isDigit d then
             rest2 ::
               (match rest2 with
                | [] => []
                | e :: rest3 => if isDigit e then [rest3] else [])
           else [])
    else []

/-- Does the regex `(?:[0-9]{1,3}\.){3}[0-9]{1,3}` match at the start of `s`
(followed by anything)? -/
def v4AtStart (s : GoStr) : Bool :=
  (digitRun13 s).any fun r1 =>
    match r1 with
    | '.' :: r1' =>
      (digitRun13 r1').any fun r2 =>
        match r2 with
        | '.' :: r2' =>
          (digitRun13 r2').any fun r3 =>
            match r3 with
            | '.' :: r3' => !(digitRun13 r3').isEmpty
            | _ => false
        | _ => false
    | _ => false

/-- `regexp.MustCompile("(?:[0-9]{1,3}\\.){3}[0-9]{1,3}").Match(s)`:
does the dotted-quad pattern match anywhere in `s` (unanchored)? -/
def v4reMatch : GoStr → Bool
  | [] => v4AtStart []
  | c :: rest => v4AtStart (c :: rest) || v4reMatch rest

/-- Embedding of `truncateArgParts` for a single entry
(`ipinfo.go` lines 110–133, loop body).  `none` models a Go panic
(an out-of-range slice index); the theorems show it never occurs. -/
def truncateArgPart (s : GoStr) : Option GoStr :=
  if containsSub s "://".data then
    -- url: slots := strings.SplitN(s, "/", 4); slots[2]
    (splitNChar '/' 4 s).get? 2
  else if containsSub s "@".data then
    -- email: slots := strings.SplitN(s, "@", 2); slots[1]
    (splitNChar '@' 2 s).get? 1
  else if v4reMatch s && containsChar ':' s then
    -- v4 address with port: c := strings.Index(s, ":"); s[0:c]
    let c := indexGo ':' s
    if c < 0 then none else some (s.take c.toNat)
  else
    some s

/-- Embedding of `truncateArgParts` (`ipinfo.go` lines 110–133): the
element-wise normalization of every raw argument.  `none` models a panic in
any iteration. -/
def truncateArgParts (rawArgs : List GoStr) : Option (List GoStr) :=
  match rawArgs with
  | [] => some []
  | s :: rest => do
    let t ← truncateArgPart s
    let ts ← truncateArgParts rest
    pure (t :: ts)

/-- `dnsResponse` (`ipinfo.go` lines 44–48): the result of one DNS query.
`err` models the Go `error` value by its message (`none` = nil). -/
structure dnsResponse where
  hostname : GoStr
  addresses : List GoStr
  err : Option String
deriving DecidableEq

/-- `ipInfoResult` (`ipinfo.go` lines 51–62): the decoded response of
`https://ipinfo.io/w.x.y.z/json`.  `Distance` is `float32` in Go but is never
assigned anywhere in the program, so its value is always the zero value;
`ErrMsg` models the Go `error` field by its message (`none` = nil). -/
structure ipInfoResult where
  Ip : GoStr := []
  Hostname : GoStr := []
  City : GoStr := []
  Region : GoStr := []
  Country : GoStr := []
  Loc : GoStr := []
  Postal : GoStr := []
  Org : GoStr := []
  Distance : Nat := 0
  ErrMsg : Option String := none
deriving DecidableEq

/-- The Go map `map[string][]string`, modelled as an association list. -/
abbrev HostMap := List (GoStr × List GoStr)

/-- Go map read `m[k]` for a `map[string][]string`: the zero value
(empty list, standing for the nil slice) when the key is absent. -/
def mapGet : HostMap → GoStr → List GoStr
  | [], _ => []
  | (k', v') :: rest, k => if k' = k then v' else mapGet rest k

/-- Go map write `m[k] = v`. -/
def mapSet : HostMap → GoStr → List GoStr → HostMap
  | [], k, v => [(k, v)]
  | (k', v') :: rest, k, v =>
    if k' = k then (k, v) :: rest else (k', v') :: mapSet rest k v

/-- One iteration of the inner loop of `runDNS` (`ipinfo.go` lines 317–335):
process a single resolved address `ip` of the response whose hostname is
`hostname`, updating the pair (unique IP list, IP→hostnames map).
The `found` scan over `ipToHostnames[ip]` is membership, and
`stringInSlice ip ipAddrs` (lines 289–296) is membership in the IP list. -/
def addAddress (hostname : GoStr) (acc : List GoStr × HostMap) (ip : GoStr) :
    List GoStr × HostMap :=
  let hs := mapGet acc.2 ip
  let idx := if hostname ∈ hs then acc.2 else mapSet acc.2 ip (hs ++ [hostname])
  let ips := if ip ∈ acc.1 then acc.1 else acc.1 ++ [ip]
  (ips, idx)

/-- The outer loop body of `runDNS`'s aggregation (`ipinfo.go` lines 316–336):
process every address of one DNS response. -/
def addReply (acc : List GoStr × HostMap) (r : dnsResponse) : List GoStr × HostMap :=
  r.addresses.foldl (addAddress r.hostname) acc

/-- The aggregation loop of `runDNS` (`ipinfo.go` lines 310–336), starting from
the nil slice and the empty map. -/
def runDNSAggregate (replies : List dnsResponse) : List GoStr × HostMap :=
  replies.foldl addReply ([], [])

/-- The predicate deciding which DNS responses the collector of
`resolveAllDNS` keeps (`ipinfo.go` lines 384–393): no error and at least
one address. -/
def isGoodReply (r : dnsResponse) : Bool := r.err.isNone && !r.addresses.isEmpty

/-- The collector loop of `resolveAllDNS` (`ipinfo.go` lines 379–394): split
the responses, in arrival order, into kept replies and error messages.
`responses` is the sequence of `dnsResponse` values read off the results
channel (one per dispatched hostname; the order abstracts goroutine
scheduling). -/
def collectDNSReplies : List dnsResponse → List dnsResponse × List String
  | [] => ([], [])
  | r :: rest =>
    let acc := collectDNSReplies rest
    match r.err with
    | some e => (acc.1, ("DNS lookup failed for " ++ String.mk r.hostname ++ ": " ++ e) :: acc.2)
    | none =>
      if !r.addresses.isEmpty then (r :: acc.1, acc.2)
      else (acc.1, ("DNS lookup for " ++ String.mk r.hostname ++ " returned no addresses") :: acc.2)

/-- `runDNS` (`ipinfo.go` lines 308–345) as a function of the arriving DNS
responses: collect the replies as `resolveAllDNS` does, then aggregate them
into the unique-IP list and the IP→hostnames map. -/
def runDNS (responses : List dnsResponse) : List GoStr × HostMap :=
  runDNSAggregate (collectDNSReplies responses).1

/-- The effective worker count of `resolveAllDNS` (`ipinfo.go` lines 364–367):
`actualWorkers := workers; if len(hostnames) < workers { actualWorkers = len(hostnames) }`.
Go `int` is modelled as `Int`. -/
def actualWorkersDNS (workers : Int) (hostnames : List GoStr) : Int :=
  if (hostnames.length : Int) < workers then (hostnames.length : Int) else workers

/-- The number of goroutines actually spawned by the loop
`for i := 0; i < actualWorkers; i++` in `resolveAllDNS` (lines 368–370). -/
def spawnedWorkersDNS (workers : Int) (hostnames : List GoStr) : Nat :=
  (actualWorkersDNS workers hostnames).toNat

/-- The number of goroutines spawned by `resolveAllIpInfo`
(`ipinfo.go` lines 426–441): zero when `ipAddrs` is empty (the function
returns before starting any worker), else the same `min` computation as the
DNS pool. -/
def spawnedWorkersIpInfo (workers : Int) (ipAddrs : List GoStr) : Nat :=
  if ipAddrs.isEmpty then 0
  else (if (ipAddrs.length : Int) < workers then (ipAddrs.length : Int) else workers).toNat

/-- `resolveAllIpInfo` (`ipinfo.go` lines 425–463) as a function of the
per-IP lookup outcome.  `lookup` gives the `ipInfoResult` that
`callRemoteService` produces for an IP; `arrival` is the order in which the
dispatched IPs' results come back on the results channel (any permutation of
`ipAddrs` is realizable, depending on goroutine scheduling).  The collector
reads exactly `len(ipAddrs)` results and appends each one, errored or not. -/
def resolveAllIpInfo (lookup : GoStr → ipInfoResult) (arrival : List GoStr)
    (ipAddrs : List GoStr) : List ipInfoResult :=
  if ipAddrs.isEmpty then []
  else (arrival.map lookup).take ipAddrs.length

/-- The outcome of one `http.Client.Get` together with the body read:
a transport error, or a response with a status code, a body, and an optional
body-read (`ioutil.ReadAll`) error. -/
inductive HttpResult where
  | transportError (msg : String)
  | response (status : Nat) (body : GoStr) (readErr : Option String)
deriving DecidableEq

/-- `callRemoteService` (`ipinfo.go` lines 473–538) as a function of the HTTP
outcome.  `unmarshal` abstracts `json.Unmarshal(body, &obj)`: on success it
returns the object with the JSON fields merged in, on failure `none` (the
code then records an unmarshalling error).  The non-200 status message is
abstracted to the numeric status (Go formats `resp.Status`). -/
def callRemoteService (unmarshal : GoStr → ipInfoResult → Option ipInfoResult)
    (ip : GoStr) (http : HttpResult) : ipInfoResult :=
  let obj : ipInfoResult := { Ip := ip }
  match http with
  | .transportError m => { obj with ErrMsg := some ("HTTP GET error: " ++ m) }
  | .response status body readErr =>
    if status ≠ 200 then
      let msg := "HTTP error status: " ++ toString status ++ ", Body: " ++ String.mk body
      { obj with ErrMsg := some msg }
    else
      match readErr with
      | some e => { obj with ErrMsg := some ("error reading response body: " ++ e) }
      | none =>
        if containsSub body "Rate limit exceeded".data then
          { obj with ErrMsg := some "rate limit exceeded" }
        else if containsSub body "Wrong ip".data || containsSub body "invalid IP address".data then
          { obj with
              ErrMsg := some "API reported invalid IP",
              City := "Invalid IP".data, Region := "N/A".data, Country := "N/A".data,
              Loc := "N/A".data, Org := "N/A".data, Hostname := "N/A".data }
        else
          match unmarshal body obj with
          | some obj2 => obj2
          | none => { obj with ErrMsg := some "error unmarshalling JSON" }

/-- `latlon2coord` (`ipinfo.go` lines 138–149), up to the float parsing:
it returns the two comma-separated slots of the string.
`strconv.ParseFloat` never panics (on a parse error the Go code prints a
message and keeps the zero value), so the only partiality is the index
`slots[1]`, which panics when the string contains no comma; `none` models
that panic. -/
def latlon2coord (latlon : GoStr) : Option (GoStr × GoStr) :=
  let slots := splitOnChar ',' latlon
  match slots.get? 0, slots.get? 1 with
  | some a, some b => some (a, b)
  | _, _ => none

/-- One row of the output table: a `[]string`. -/
abbrev Row := List GoStr

/-- `fmt.Sprintf("%v\n%v", a, b)` for strings. -/
def nlJoin2 (a b : GoStr) : GoStr := a ++ '\n' :: b

/-- `fmt.Sprintf("%v\n%v\n%v", a, b, c)` for strings. -/
def nlJoin3 (a b c : GoStr) : GoStr := a ++ '\n' :: (b ++ '\n' :: c)

/-- The body of the per-record loop of `outputTable`
(`ipinfo.go` lines 203–249): the rows contributed by one `ipInfoResult`.

* `fmtDist p1 p2` abstracts lines 223–226 — parsing the two coordinate
  pairs with `strconv.ParseFloat`, `HaversineDistance` over `float64`, and
  `fmt.Sprintf("%.2f", miles)` — as a function of the two textual
  coordinate pairs (float arithmetic is not kernel-evaluable; the formula
  itself is verified separately over `ℝ`).
* `loc` is the `loc` argument of `outputTable` (the self-location).
* `none` models a panic inside the loop body (the `slots[1]` index of
  `latlon2coord`, or the `locParts[1]` index of line 245).
* A nil `hostnamesForThisIP` makes Go warn and skip the record (lines
  235–238); absent and empty both produce no rows here. -/
def recordRows (fmtDist : GoStr × GoStr → GoStr × GoStr → GoStr)
    (idx : HostMap) (loc : GoStr) (oneRow : Bool) (info : ipInfoResult) :
    Option (List Row) :=
  if containsChar ':' info.Ip then some []
  else if info.ErrMsg.isSome then some []
  else
    let geo : Option (GoStr × GoStr × GoStr × GoStr) :=
      if info.Loc = "37.7510,-97.8220".data ∨ info.Loc = [] then
        some ("N/A".data, "N/A".data, "N/A".data, "N/A".data)
      else
        match latlon2coord loc, latlon2coord info.Loc with
        | some p1, some p2 => some (info.Loc, info.City, info.Region, fmtDist p1 p2)
        | _, _ => none
    match geo with
    | none => none
    | some (currentLoc, currentCity, currentRegion, distanceStr) =>
      let locParts :=
        if currentLoc ≠ "N/A".data then splitOnChar ',' currentLoc
        else ["N/A".data, "N/A".data]
      let hostnames := mapGet idx info.Ip
      if oneRow then
        some (hostnames.map fun h =>
          [h, info.Ip, info.Hostname, info.Org, currentCity, currentRegion,
           info.Country, currentLoc, distanceStr])
      else
        match locParts.get? 0, locParts.get? 1 with
        | some lp0, some lp1 =>
          some (hostnames.map fun h =>
            [nlJoin2 h info.Ip, nlJoin2 info.Hostname info.Org,
             nlJoin3 currentCity currentRegion info.Country, nlJoin2 lp0 lp1, distanceStr])
        | _, _ => none

/-- The row-generation phase of `outputTable` (`ipinfo.go` lines 197–249):
all rows, in record order.  `none` models a panic during generation (the
program dies before rendering anything). -/
def allRowsOf (fmtDist : GoStr × GoStr → GoStr × GoStr → GoStr)
    (idx : HostMap) (loc : GoStr) (oneRow : Bool) :
    List ipInfoResult → Option (List Row)
  | [] => some []
  | info :: rest => do
    let rs ← recordRows fmtDist idx loc oneRow info
    let rest' ← allRowsOf fmtDist idx loc oneRow rest
    pure (rs ++ rest')

/-- The first line of a cell: `strings.Split(s, "\n")[0]`
(safe: `Split` always returns at least one part). -/
def firstLineOf (s : GoStr) : GoStr := (splitOnChar '\n' s).headD []

/-- The sort key of a row: the first line of column 0, i.e. the input
hostname (`ipinfo.go` lines 253–254). -/
def rowKey (r : Row) : GoStr := firstLineOf (r.headD [])

/-- Go string comparison `a < b`: bytewise lexicographic (for the character
lists used here, identical to characterwise lexicographic order). -/
def strLt : GoStr → GoStr → Bool
  | [], [] => false
  | [], _ :: _ => true
  | _ :: _, [] => false
  | a :: as, b :: bs => if a < b then true else if b < a then false else strLt as bs

/-- The comparator passed to `sort.Slice` in `outputTable`
(`ipinfo.go` lines 252–256): compare the first line of column 0
(the input hostname) with Go `<`. -/
def rowLess (a b : Row) : Bool := strLt (rowKey a) (rowKey b)

/-- Modelled from the spec: the call `sort.Slice(allRows, less)` uses the Go
standard library's sorting routine, whose code is not part of this
repository.  Its documented contract is: afterwards the slice is a
permutation of its former contents ordered by `less` (no later element is
`less` than an earlier one); the ordering of elements the comparator treats
as equal is explicitly NOT guaranteed (`sort.Slice` is documented as not
stable).  `SortSliceOutcome gen final` says `final` is a possible content of
`allRows` after the call when it contained `gen` before. -/
def SortSliceOutcome (gen final : List Row) : Prop :=
  final.Perm gen ∧ final.Pairwise fun a b => rowLess b a = false

/-- The observable outcome of `outputTable` (`ipinfo.go` lines 196–278) up
to rendering: row generation followed by `sort.Slice`. -/
def OutputTableRows (fmtDist : GoStr × GoStr → GoStr × GoStr → GoStr)
    (ipInfo : List ipInfoResult) (idx : HostMap) (loc : GoStr) (oneRow : Bool)
    (final : List Row) : Prop :=
  ∃ gen, allRowsOf fmtDist idx loc oneRow ipInfo = some gen ∧ SortSliceOutcome gen final

/-- `hsin` (`ipinfo.go` lines 154–156) over `ℝ`: the haversine of an angle. -/
noncomputable def hsin (theta : ℝ) : ℝ := Real.sin (theta / 2) ^ 2

/-- `HaversineDistance` (`ipinfo.go` lines 165–184) over `ℝ` (the
idealization of the program's `float64` arithmetic): great-circle distance
in miles, Earth radius 6378100 meters, meters-to-miles division
by 1609.344. -/
noncomputable def HaversineDistance (lat1 lon1 lat2 lon2 : ℝ) : ℝ :=
  let piRad := Real.pi / 180
  let la1 := lat1 * piRad
  let lo1 := lon1 * piRad
  let la2 := lat2 * piRad
  let lo2 := lon2 * piRad
  let r : ℝ := 6378100
  let h := hsin (la2 - la1) + Real.cos la1 * Real.cos la2 * hsin (lo2 - lo1)
  let meters := 2 * r * Real.arcsin (Real.sqrt h)
  meters / 1609.344

/-- Append an element to a list unless it is already present — the step both
deduplicating appends in `runDNS` perform (`ipinfo.go` lines 320–334):
`stringInSlice`-guarded append for the IP list, `found`-guarded append for
the per-IP hostname list. -/
def insertNovel (l : List GoStr) (a : GoStr) : List GoStr :=
  if a ∈ l then l else l ++ [a]

/-- First-occurrence deduplication, keeping order: the reference value the
aggregation of `runDNS` is proved to compute. -/
def dedupFirst (l : List GoStr) : List GoStr := l.foldl insertNovel []

/-- The hostnames of the replies that list `ip` among their resolved
addresses, in reply order. -/
def repliesListing (ip : GoStr) (replies : List dnsResponse) : List GoStr :=
  (replies.filter fun r => decide (ip ∈ r.addresses)).map dnsResponse.hostname

/-- Formalization of the ordering claim of the specification at two row
lists `ra` and `rb` that the generation phase can produce from identical
inputs and identical remote responses (differing only in the
scheduler-chosen arrival order of the geolocation results), where in both
lists all rows share one identifier (all rows are ties of the comparator)
and each list is already non-strictly ascending.

The claim says the program's sorting step `S` sorts ascending by identifier
with ties kept in their original relative order — on an already-ascending
all-tied list that forces `S ra = ra` and `S rb = rb` — and that the final
ordering is deterministic across runs given identical inputs and identical
remote responses, which forces `S ra = S rb`. -/
def C2OrderingClaim (ra rb : List Row) : Prop :=
  ∃ S : List Row → List Row,
    (∀ l, SortSliceOutcome l (S l)) ∧ S ra = ra ∧ S rb = rb ∧ S ra = S rb

/-- A trivial `json.Unmarshal` oracle: every body decodes without error and
adds no fields (used to evaluate code paths that return before or ignore
unmarshalling). -/
def unmarshalId : GoStr → ipInfoResult → Option ipInfoResult := fun _ obj => some obj

/-- A concrete stand-in for the float distance formatting of
`ipinfo.go` lines 223–226, used to evaluate the row pipeline on concrete
inputs. -/
def fmtDistStub : GoStr × GoStr → GoStr × GoStr → GoStr := fun _ _ => "1.00".data

/-- The `ipInfoResult` the program builds for a response body reporting an
invalid IP (`"Wrong ip"`), with a well-formed HTTP exchange. -/
def invalidIpRecord : ipInfoResult :=
  callRemoteService unmarshalId "1.2.3.999".data (.response 200 "Wrong ip".data none)

/-- A successfully geolocated record for a concrete IPv4 address. -/
def goodRecord : ipInfoResult :=
  { Ip := "9.9.9.9".data, Hostname := "x".data, City := "c".data, Region := "r".data,
    Country := "US".data, Loc := "1.0,2.0".data, Org := "o".data }

/-- Remote-response oracle: every queried IP geolocates like `goodRecord`
(same location), with its own `Ip` field. -/
def sharedHostLookup : GoStr → ipInfoResult := fun ip => { goodRecord with Ip := ip }

/-- Two distinct IPs that one hostname resolved to. -/
def twoIps : List GoStr := ["9.9.9.9".data, "8.8.8.8".data]

/-- The IP→hostnames map after `h.com` resolved to both IPs of `twoIps`. -/
def sharedHostIdx : HostMap :=
  [("9.9.9.9".data, ["h.com".data]), ("8.8.8.8".data, ["h.com".data])]

/-- The generated report rows when the geolocation results for `twoIps`
arrive in dispatch order. -/
def rowsArrivalA : Option (List Row) :=
  allRowsOf fmtDistStub sharedHostIdx "5.0,6.0".data true
    (resolveAllIpInfo sharedHostLookup twoIps twoIps)

/-- The generated report rows for the same inputs and the same remote
responses when the two geolocation results arrive in the opposite order. -/
def rowsArrivalB : Option (List Row) :=
  allRowsOf fmtDistStub sharedHostIdx "5.0,6.0".data true
    (resolveAllIpInfo sharedHostLookup twoIps.reverse twoIps)

/-! ## Helper lemmas -/

theorem splitOnChar_of_not_mem {c : Char} : ∀ {s : GoStr}, c ∉ s → splitOnChar c s = [s] := by
  intro s h
  induction s with
  | nil => rfl
  | cons d rest ih =>
    rw [List.mem_cons, not_or] at h
    have hd : (d == c) = false := by
      simp only [beq_eq_false_iff_ne, ne_eq]
      exact fun hdc => h.1 hdc.symm
    simp [splitOnChar, hd, ih h.2]

theorem startsWith_iff : ∀ (s pat : GoStr), startsWith s pat = true ↔ ∃ t, s = pat ++ t := by
  intro s pat
  induction pat generalizing s with
  | nil => simp [startsWith]
  | cons p ps ih =>
    cases s with
    | nil => simp [startsWith]
    | cons c s' => simp [startsWith, ih]

theorem containsSub_iff :
    ∀ (s pat : GoStr), containsSub s pat = true ↔ ∃ pre post, s = pre ++ (pat ++ post) := by
  intro s pat
  induction s with
  | nil =>
    rw [containsSub, Bool.or_eq_true, startsWith_iff]
    constructor
    · rintro (⟨t, ht⟩ | h)
      · exact ⟨[], t, ht⟩
      · cases h
    · rintro ⟨pre, post, h⟩
      rcases List.append_eq_nil.mp h.symm with ⟨hpre, hrest⟩
      rcases List.append_eq_nil.mp hrest with ⟨hpat, hpost⟩
      exact Or.inl ⟨post, by simp [hpat, hpost]⟩
  | cons d rest ih =>
    rw [containsSub, Bool.or_eq_true, startsWith_iff, ih]
    constructor
    · rintro (⟨t, ht⟩ | ⟨pre, post, h⟩)
      · exact ⟨[], t, by simpa using ht⟩
      · exact ⟨d :: pre, post, by simp [h]⟩
    · rintro ⟨pre, post, h⟩
      cases pre with
      | nil => exact Or.inl ⟨post, by simpa using h⟩
      | cons e pre' =>
        rw [List.cons_append, List.cons.injEq] at h
        exact Or.inr ⟨pre', post, h.2⟩

theorem count_le_of_containsSub (c : Char) {s pat : GoStr}
    (h : containsSub s pat = true) : pat.count c ≤ s.count c := by
  obtain ⟨pre, post, rfl⟩ := (containsSub_iff s pat).mp h
  simp only [List.count_append]
  omega

theorem splitNChar_length (c : Char) :
    ∀ (s : GoStr) (n : Nat), 1 ≤ n →
      (splitNChar c n s).length = min n (s.count c + 1) := by
  intro s
  induction s with
  | nil =>
    intro n hn
    rcases n with _ | _ | m
    · omega
    · simp [splitNChar]
    · simp [splitNChar]
  | cons d rest ih =>
    intro n hn
    rcases n with _ | _ | m
    · omega
    · simp only [splitNChar, List.length_singleton]
      omega
    · by_cases hdc : d = c
      · subst hdc
        simp only [splitNChar, beq_self_eq_true, if_true, List.length_cons,
          List.count_cons_self]
        rw [ih (m + 1) (by omega)]
        omega
      · have hb : (d == c) = false := by simp [hdc]
        have hcnt : (d :: rest).count c = rest.count c := by
          simp [List.count_cons, hdc, Ne.symm hdc]
        have hl := ih (m + 2) (by omega)
        cases hsp : splitNChar c (m + 2) rest with
        | nil => rw [hsp] at hl; simp at hl; omega
        | cons p ps =>
          rw [hsp] at hl
          simp only [splitNChar, hb, Bool.false_eq_true, if_false, hsp,
            List.length_cons] at hl ⊢
          omega

theorem indexGo_nonneg {c : Char} : ∀ {s : GoStr}, containsChar c s = true → 0 ≤ indexGo c s := by
  intro s h
  induction s with
  | nil => simp [containsChar] at h
  | cons d rest ih =>
    by_cases hdc : d = c
    · simp [indexGo, hdc]
    · simp only [containsChar, beq_iff_eq, hdc, if_false] at h
      have hr := ih h
      simp only [indexGo, beq_iff_eq, hdc, if_false]
      split <;> omega

/-! ## Claim theorems -/

/-- C10: `latlon2coord` splits its argument on `,` and unconditionally
indexes element 1 of the result; on any input without a comma the split has
exactly one element, so the function panics (modelled by `none`) instead of
returning a value or an error. -/
theorem C10_latlon2coord_panics_without_comma (s : GoStr) (h : ',' ∉ s) :
    (splitOnChar ',' s).length = 1 ∧ latlon2coord s = none := by
  have hs := splitOnChar_of_not_mem h
  refine ⟨by rw [hs]; rfl, ?_⟩
  simp [latlon2coord, hs]

/-- C10 witness: the sentinel `"N/A"` has no comma and makes `latlon2coord`
panic. -/
theorem C10_witness :
    ',' ∉ "N/A".data ∧
      ((splitOnChar ',' "N/A".data).length = 1 ∧ latlon2coord "N/A".data = none) :=
  ⟨by decide, C10_latlon2coord_panics_without_comma "N/A".data (by decide)⟩

/-- C7: for a non-negative requested worker count `w` both pools spawn
exactly `min w n` workers, where `n` is the item count. -/
theorem C7_spawned_workers_min (w : Int) (hostnames ipAddrs : List GoStr) (hw : 0 ≤ w) :
    spawnedWorkersDNS w hostnames = min w.toNat hostnames.length ∧
    spawnedWorkersIpInfo w ipAddrs = min w.toNat ipAddrs.length := by
  constructor
  · simp only [spawnedWorkersDNS, actualWorkersDNS]
    split <;> omega
  · cases ipAddrs with
    | nil => simp [spawnedWorkersIpInfo]
    | cons a rest =>
      simp only [spawnedWorkersIpInfo, List.isEmpty_cons, if_false, Bool.false_eq_true]
      split <;> omega

/-- C7 witness: the spec's edge case — 30 requested workers but only 2
items supplied — spawns exactly 2 workers in both pools. -/
theorem C7_witness :
    0 ≤ (30 : Int) ∧
    spawnedWorkersDNS 30 ["gatech.edu".data, "clemson.edu".data] = 2 ∧
    spawnedWorkersIpInfo 30 ["1.1.1.1".data, "2.2.2.2".data] = 2 := by
  have h := C7_spawned_workers_min 30 ["gatech.edu".data, "clemson.edu".data]
    ["1.1.1.1".data, "2.2.2.2".data] (by decide)
  exact ⟨by decide, by rw [h.1]; decide, by rw [h.2]; decide⟩

/-- C9: for any arrival order of the per-IP results (any permutation of the
dispatched unique IPs), the geolocation collector produces exactly one
`ipInfoResult` per dispatched IP — as many results as IPs, none dropped,
none extra — and the empty IP list yields the empty result list with no
workers spawned. -/
theorem C9_collector_completeness (lookup : GoStr → ipInfoResult)
    (arrival ipAddrs : List GoStr) (hperm : arrival.Perm ipAddrs) :
    (resolveAllIpInfo lookup arrival ipAddrs).length = ipAddrs.length ∧
    (resolveAllIpInfo lookup arrival ipAddrs).Perm (ipAddrs.map lookup) ∧
    resolveAllIpInfo lookup arrival [] = [] ∧
    (∀ w : Int, spawnedWorkersIpInfo w [] = 0) := by
  have hlen : arrival.length = ipAddrs.length := hperm.length_eq
  have hmain : resolveAllIpInfo lookup arrival ipAddrs = arrival.map lookup ∨
      (ipAddrs = [] ∧ resolveAllIpInfo lookup arrival ipAddrs = []) := by
    cases ipAddrs with
    | nil => exact Or.inr ⟨rfl, rfl⟩
    | cons a rest =>
      left
      simp only [resolveAllIpInfo, List.isEmpty_cons, Bool.false_eq_true, if_false]
      have hml : (List.map lookup arrival).length = (a :: rest).length := by
        simpa using hlen
      rw [← hml, List.take_length]
  refine ⟨?_, ?_, rfl, fun w => rfl⟩
  · rcases hmain with h | ⟨he, h⟩
    · rw [h]; simp [hlen]
    · rw [h, he]; rfl
  · rcases hmain with h | ⟨he, h⟩
    · rw [h]; exact hperm.map lookup
    · rw [h, he]; exact List.Perm.refl _

/-- C9 witness: two unique IPs whose results arrive in reversed order still
produce exactly two records, a permutation of the per-IP lookups. -/
theorem C9_witness :
    (twoIps.reverse).Perm twoIps ∧
    ((resolveAllIpInfo sharedHostLookup twoIps.reverse twoIps).length = twoIps.length ∧
     (resolveAllIpInfo sharedHostLookup twoIps.reverse twoIps).Perm
       (twoIps.map sharedHostLookup) ∧
     resolveAllIpInfo sharedHostLookup twoIps.reverse [] = [] ∧
     (∀ w : Int, spawnedWorkersIpInfo w [] = 0)) :=
  ⟨by decide, C9_collector_completeness sharedHostLookup twoIps.reverse twoIps (by decide)⟩

/-- C1 counterexample: on a well-formed 200 response whose body reports an
invalid IP, `callRemoteService` DOES set a non-nil error
(`"API reported invalid IP"`) alongside the sentinel fields, and
`outputTable` therefore excludes the record from the report rows (no rows
are generated even though a hostname is mapped to the IP) — refuting the
claim that the record carries no error and is included. -/
theorem C1_counterexample :
    invalidIpRecord.City = "Invalid IP".data ∧
    invalidIpRecord.Region = "N/A".data ∧
    invalidIpRecord.Loc = "N/A".data ∧
    invalidIpRecord.ErrMsg = some "API reported invalid IP" ∧
    allRowsOf fmtDistStub [("1.2.3.999".data, ["h.com".data])] "5.0,6.0".data false
      [invalidIpRecord] = some [] := by
  decide

/-- C1 (amended): an invalid-IP response body (with a 200 status, a
readable body and no rate-limit marker) yields a record with the sentinel
fields AND the error `"API reported invalid IP"`, and `outputTable` skips
that record, contributing no report rows. -/
theorem C1_invalid_ip_sentinel_record
    (unmarshal : GoStr → ipInfoResult → Option ipInfoResult) (ip body : GoStr)
    (hbad : containsSub body "Wrong ip".data = true ∨
            containsSub body "invalid IP address".data = true)
    (hrate : containsSub body "Rate limit exceeded".data = false) :
    (callRemoteService unmarshal ip (.response 200 body none)).City = "Invalid IP".data ∧
    (callRemoteService unmarshal ip (.response 200 body none)).Region = "N/A".data ∧
    (callRemoteService unmarshal ip (.response 200 body none)).Country = "N/A".data ∧
    (callRemoteService unmarshal ip (.response 200 body none)).Loc = "N/A".data ∧
    (callRemoteService unmarshal ip (.response 200 body none)).Org = "N/A".data ∧
    (callRemoteService unmarshal ip (.response 200 body none)).Hostname = "N/A".data ∧
    (callRemoteService unmarshal ip (.response 200 body none)).ErrMsg =
      some "API reported invalid IP" ∧
    (∀ fmtD idx loc oneRow,
      recordRows fmtD idx loc oneRow (callRemoteService unmarshal ip (.response 200 body none)) =
        some []) := by
  have hcond : (containsSub body "Wrong ip".data ||
      containsSub body "invalid IP address".data) = true := by
    rcases hbad with h | h <;> simp [h]
  have hrec : callRemoteService unmarshal ip (.response 200 body none) =
      { Ip := ip, ErrMsg := some "API reported invalid IP",
        City := "Invalid IP".data, Region := "N/A".data, Country := "N/A".data,
        Loc := "N/A".data, Org := "N/A".data, Hostname := "N/A".data } := by
    simp [callRemoteService, hrate, hcond]
  rw [hrec]
  refine ⟨rfl, rfl, rfl, rfl, rfl, rfl, rfl, ?_⟩
  intro fmtD idx loc oneRow
  simp [recordRows]

/-- C1 witness: the amended statement evaluated at the concrete body
`"Wrong ip"`. -/
theorem C1_witness :
    (containsSub "Wrong ip".data "Wrong ip".data = true ∨
     containsSub "Wrong ip".data "invalid IP address".data = true) ∧
    containsSub "Wrong ip".data "Rate limit exceeded".data = false ∧
    (callRemoteService unmarshalId "1.2.3.999".data
        (.response 200 "Wrong ip".data none)).ErrMsg = some "API reported invalid IP" ∧
    recordRows fmtDistStub [("1.2.3.999".data, ["h.com".data])] "5.0,6.0".data false
      (callRemoteService unmarshalId "1.2.3.999".data
        (.response 200 "Wrong ip".data none)) = some [] := by
  have h := C1_invalid_ip_sentinel_record unmarshalId "1.2.3.999".data "Wrong ip".data
    (Or.inl (by decide)) (by decide)
  exact ⟨Or.inl (by decide), by decide, h.2.2.2.2.2.2.1,
    h.2.2.2.2.2.2.2 fmtDistStub [("1.2.3.999".data, ["h.com".data])] "5.0,6.0".data false⟩

/-- C5: when the self-location query fails (here: a transport error), main
performs no check — the record carries an error and an empty `loc`, and
passing that `loc` into the row generation makes `latlon2coord` panic
(index out of range) on the first successfully located record, instead of
the run being aborted with a diagnostic. -/
theorem C5_self_location_failure_panics :
    (callRemoteService unmarshalId [] (.transportError "connection refused")).ErrMsg =
      some "HTTP GET error: connection refused" ∧
    (callRemoteService unmarshalId [] (.transportError "connection refused")).Loc = [] ∧
    allRowsOf fmtDistStub sharedHostIdx
      (callRemoteService unmarshalId [] (.transportError "connection refused")).Loc false
      [goodRecord] = none := by
  decide

/-- C2 counterexample: from identical inputs (`twoIps`, one hostname mapped
to both IPs) and identical remote responses (`sharedHostLookup`), two
realizable arrival orders generate row lists that contain the same two
tied rows (same identifier `h.com`, hence already non-strictly ascending)
in opposite orders; no sorting function can keep ties in their original
relative order on both lists and also return identical output for both, so
the claimed stable-and-deterministic final ordering is impossible. -/
theorem C2_counterexample :
    twoIps.reverse.Perm twoIps ∧
    rowsArrivalA.isSome = true ∧ rowsArrivalB.isSome = true ∧
    (rowsArrivalA.getD []).map rowKey = ["h.com".data, "h.com".data] ∧
    (rowsArrivalB.getD []).map rowKey = ["h.com".data, "h.com".data] ∧
    rowsArrivalA.getD [] ≠ rowsArrivalB.getD [] ∧
    ¬ C2OrderingClaim (rowsArrivalA.getD []) (rowsArrivalB.getD []) := by
  refine ⟨by decide, by decide, by decide, by decide, by decide, by decide, ?_⟩
  rintro ⟨S, -, ha, hb, heq⟩
  rw [ha, hb] at heq
  exact absurd heq (by decide)

/-- C4 counterexample: the input `"x:1.2.3.4"` is not a URL, not an email
address, and not a bare IPv4 literal with a port suffix, so by the claim it
should pass through unchanged; but the unanchored dotted-quad regex matches
the substring `"1.2.3.4"` and the string contains a `:`, so the normalizer
truncates it to the part before the first `:`, returning `"x"`. -/
theorem C4_counterexample :
    truncateArgPart "x:1.2.3.4".data = some "x".data ∧
    "x".data ≠ "x:1.2.3.4".data ∧
    containsSub "x:1.2.3.4".data "://".data = false ∧
    containsSub "x:1.2.3.4".data "@".data = false := by
  decide

/-- C4 (amended): for every input, the normalizer raises no exception and
returns: the authority segment (3rd part of a `SplitN` on `/` into at most
4 parts) when the input contains `"://"` — the split then always has at
least 3 parts; else the part after the first `@` when it contains `@` — the
split then always has 2 parts; else, when the input contains a substring
matching the dotted-quad regex (not necessarily being a bare IPv4 literal)
and contains `:` anywhere, the part before the first `:`; else the input
unchanged. -/
theorem C4_normalizer_total (s : GoStr) :
    ∃ t, truncateArgPart s = some t ∧
      (if containsSub s "://".data = true then (splitNChar '/' 4 s).get? 2 = some t
       else if containsSub s "@".data = true then (splitNChar '@' 2 s).get? 1 = some t
       else if (v4reMatch s && containsChar ':' s) = true then
         0 ≤ indexGo ':' s ∧ t = s.take (indexGo ':' s).toNat
       else t = s) := by
  by_cases h1 : containsSub s "://".data = true
  · have hcv : ("://".data).count '/' = 2 := by decide
    have hcnt : (2 : Nat) ≤ s.count '/' := by
      have h := count_le_of_containsSub '/' h1
      omega
    have hlen := splitNChar_length '/' s 4 (by omega)
    have hne : (splitNChar '/' 4 s).get? 2 ≠ none := by
      rw [ne_eq, List.get?_eq_none]
      omega
    obtain ⟨x, hx⟩ := Option.ne_none_iff_exists'.mp hne
    have hx' : (splitNChar '/' 4 s)[2]? = some x := by
      rw [← List.get?_eq_getElem?]
      exact hx
    exact ⟨x, by simp [truncateArgPart, h1, hx'], by simp [h1, hx']⟩
  · by_cases h2 : containsSub s "@".data = true
    · have hcv : ("@".data).count '@' = 1 := by decide
      have hcnt : (1 : Nat) ≤ s.count '@' := by
        have h := count_le_of_containsSub '@' h2
        omega
      have hlen := splitNChar_length '@' s 2 (by omega)
      have hne : (splitNChar '@' 2 s).get? 1 ≠ none := by
        rw [ne_eq, List.get?_eq_none]
        omega
      obtain ⟨x, hx⟩ := Option.ne_none_iff_exists'.mp hne
      have hx' : (splitNChar '@' 2 s)[1]? = some x := by
        rw [← List.get?_eq_getElem?]
        exact hx
      exact ⟨x, by simp [truncateArgPart, h1, h2, hx'], by simp [h1, h2, hx']⟩
    · by_cases h3 : (v4reMatch s && containsChar ':' s) = true
      · have hc : containsChar ':' s = true := ((Bool.and_eq_true _ _).mp h3).2
        have hge := indexGo_nonneg hc
        refine ⟨s.take (indexGo ':' s).toNat, ?_, ?_⟩
        · simp only [truncateArgPart, h1, h2, h3, if_false, if_true, Bool.false_eq_true]
          rw [if_neg (not_lt.mpr hge)]
        · simp [h1, h2, h3, hge]
      · exact ⟨s, by simp [truncateArgPart, h1, h2, h3], by simp [h1, h2, h3]⟩

theorem mapGet_mapSet_self (m : HostMap) (k : GoStr) (v : List GoStr) :
    mapGet (mapSet m k v) k = v := by
  induction m with
  | nil => simp [mapSet, mapGet]
  | cons kv rest ih =>
    obtain ⟨k', v'⟩ := kv
    by_cases h : k' = k
    · simp [mapSet, mapGet, h]
    · simp [mapSet, mapGet, h, ih]

theorem mapGet_mapSet_ne (m : HostMap) (k q : GoStr) (v : List GoStr) (h : q ≠ k) :
    mapGet (mapSet m k v) q = mapGet m q := by
  induction m with
  | nil => simp [mapSet, mapGet, Ne.symm h]
  | cons kv rest ih =>
    obtain ⟨k', v'⟩ := kv
    by_cases hk : k' = k
    · subst hk
      simp [mapSet, mapGet, Ne.symm h]
    · simp [mapSet, mapGet, hk, ih]

theorem insertNovel_idem (l : List GoStr) (a : GoStr) :
    insertNovel (insertNovel l a) a = insertNovel l a := by
  unfold insertNovel
  by_cases h : a ∈ l
  · simp [h]
  · simp [h]

theorem foldl_insertNovel_nodup :
    ∀ (l : List GoStr) (acc : List GoStr), acc.Nodup → (l.foldl insertNovel acc).Nodup := by
  intro l
  induction l with
  | nil => intro acc h; exact h
  | cons a rest ih =>
    intro acc h
    rw [List.foldl_cons]
    apply ih
    unfold insertNovel
    by_cases hm : a ∈ acc
    · simpa [hm] using h
    · simp [hm, List.nodup_append, h]

theorem dedupFirst_nodup (l : List GoStr) : (dedupFirst l).Nodup :=
  foldl_insertNovel_nodup l [] List.nodup_nil

theorem foldl_addAddress_fst (h : GoStr) :
    ∀ (as : List GoStr) (acc : List GoStr × HostMap),
      (as.foldl (addAddress h) acc).1 = as.foldl insertNovel acc.1 := by
  intro as
  induction as with
  | nil => intro acc; rfl
  | cons a rest ih =>
    intro acc
    rw [List.foldl_cons, List.foldl_cons, ih]
    rfl

theorem foldl_addAddress_get (h : GoStr) :
    ∀ (as : List GoStr) (acc : List GoStr × HostMap) (ip : GoStr),
      mapGet (as.foldl (addAddress h) acc).2 ip =
        if ip ∈ as then insertNovel (mapGet acc.2 ip) h else mapGet acc.2 ip := by
  intro as
  induction as with
  | nil => intro acc ip; simp
  | cons a rest ih =>
    intro acc ip
    rw [List.foldl_cons, ih]
    by_cases hai : a = ip
    · subst hai
      have hga : mapGet (addAddress h acc a).2 a = insertNovel (mapGet acc.2 a) h := by
        simp only [addAddress, insertNovel]
        by_cases hm : h ∈ mapGet acc.2 a
        · simp [hm]
        · simp [hm, mapGet_mapSet_self]
      by_cases hmem : a ∈ rest
      · simp [hmem, hga, insertNovel_idem]
      · simp [hmem, hga]
    · have hga : mapGet (addAddress h acc a).2 ip = mapGet acc.2 ip := by
        simp only [addAddress]
        by_cases hm : h ∈ mapGet acc.2 a
        · simp [hm]
        · simp [hm, mapGet_mapSet_ne _ _ _ _ (Ne.symm hai)]
      simp [List.mem_cons, Ne.symm hai, hga]

theorem addReply_fst (acc : List GoStr × HostMap) (r : dnsResponse) :
    (addReply acc r).1 = r.addresses.foldl insertNovel acc.1 :=
  foldl_addAddress_fst r.hostname r.addresses acc

theorem addReply_get (acc : List GoStr × HostMap) (r : dnsResponse) (ip : GoStr) :
    mapGet (addReply acc r).2 ip =
      if ip ∈ r.addresses then insertNovel (mapGet acc.2 ip) r.hostname
      else mapGet acc.2 ip :=
  foldl_addAddress_get r.hostname r.addresses acc ip

theorem foldl_addReply_fst :
    ∀ (replies : List dnsResponse) (acc : List GoStr × HostMap),
      (replies.foldl addReply acc).1 =
        (replies.flatMap dnsResponse.addresses).foldl insertNovel acc.1 := by
  intro replies
  induction replies with
  | nil => intro acc; rfl
  | cons r rest ih =>
    intro acc
    rw [List.foldl_cons, ih, List.flatMap_cons, List.foldl_append]
    have h2 : (addReply acc r).1 = r.addresses.foldl insertNovel acc.1 := addReply_fst acc r
    rw [h2]

theorem foldl_addReply_get :
    ∀ (replies : List dnsResponse) (acc : List GoStr × HostMap) (ip : GoStr),
      mapGet (replies.foldl addReply acc).2 ip =
        (repliesListing ip replies).foldl insertNovel (mapGet acc.2 ip) := by
  intro replies
  induction replies with
  | nil => intro acc ip; rfl
  | cons r rest ih =>
    intro acc ip
    rw [List.foldl_cons, ih]
    by_cases hm : ip ∈ r.addresses
    · simp [repliesListing, hm, addReply_get]
    · simp [repliesListing, hm, addReply_get]

theorem collectDNSReplies_fst (responses : List dnsResponse) :
    (collectDNSReplies responses).1 = responses.filter isGoodReply := by
  induction responses with
  | nil => rfl
  | cons r rest ih =>
    cases herr : r.err with
    | some e => simp [collectDNSReplies, herr, isGoodReply, ih]
    | none =>
      by_cases haddr : r.addresses.isEmpty
      · simp [collectDNSReplies, herr, isGoodReply, haddr, ih]
      · simp [collectDNSReplies, herr, isGoodReply, haddr, ih]

/-- C6: for every sequence of arriving DNS outcomes, the aggregation keeps
exactly the outcomes with no error and at least one address (the others
contribute to neither structure); the unique-IP list is the
first-occurrence deduplication of all kept addresses in order (each IP at
most once, so the geolocation pool is dispatched once per unique IP); and
the per-IP hostname list is the first-occurrence deduplication of the
hostnames of the kept outcomes that list that IP, in insertion order (each
identifier at most once). -/
theorem C6_aggregation_dedup (responses : List dnsResponse) :
    (collectDNSReplies responses).1 = responses.filter isGoodReply ∧
    (runDNS responses).1 =
      dedupFirst ((responses.filter isGoodReply).flatMap dnsResponse.addresses) ∧
    (runDNS responses).1.Nodup ∧
    (∀ ip, mapGet (runDNS responses).2 ip =
      dedupFirst (repliesListing ip (responses.filter isGoodReply))) ∧
    (∀ ip, (mapGet (runDNS responses).2 ip).Nodup) := by
  have hc := collectDNSReplies_fst responses
  have hfst : (runDNS responses).1 =
      dedupFirst ((responses.filter isGoodReply).flatMap dnsResponse.addresses) := by
    unfold runDNS runDNSAggregate
    rw [hc, foldl_addReply_fst]
    rfl
  have hget : ∀ ip, mapGet (runDNS responses).2 ip =
      dedupFirst (repliesListing ip (responses.filter isGoodReply)) := by
    intro ip
    unfold runDNS runDNSAggregate
    rw [hc, foldl_addReply_get]
    rfl
  refine ⟨hc, hfst, ?_, hget, ?_⟩
  · rw [hfst]; exact dedupFirst_nodup _
  · intro ip; rw [hget ip]; exact dedupFirst_nodup _

theorem strLt_eq_false_antisymm : ∀ x y : GoStr, strLt x y = false → strLt y x = false → x = y := by
  intro x
  induction x with
  | nil =>
    intro y h1 h2
    cases y with
    | nil => rfl
    | cons b bs => simp [strLt] at h1
  | cons a as ih =>
    intro y h1 h2
    cases y with
    | nil => simp [strLt] at h2
    | cons b bs =>
      by_cases hab : a < b
      · simp [strLt, hab] at h1
      · by_cases hba : b < a
        · simp [strLt, hba, hab] at h2
        · have hcab : a = b := le_antisymm (not_lt.mp hba) (not_lt.mp hab)
          subst hcab
          simp only [strLt, lt_irrefl, if_false] at h1 h2
          rw [ih bs h1 h2]

/-- C2 (amended): the sorting step orders the rows non-strictly ascending
by identifier (the comparator looks only at the first line of column 0),
and although `sort.Slice` guarantees neither stability nor a unique output
on ties, any two outcomes it may produce from the same generated rows are
permutations of each other carrying the SAME identifier sequence — the
identifier column of the final table is deterministic, while the relative
order of distinct rows sharing an identifier is not specified. -/
theorem C2_sorted_key_sequence (gen l1 l2 : List Row)
    (h1 : SortSliceOutcome gen l1) (h2 : SortSliceOutcome gen l2) :
    l1.Perm l2 ∧ l1.map rowKey = l2.map rowKey := by
  obtain ⟨hp1, hs1⟩ := h1
  obtain ⟨hp2, hs2⟩ := h2
  have hperm := hp1.trans hp2.symm
  refine ⟨hperm, ?_⟩
  have hmk := hperm.map rowKey
  have hs1' : (l1.map rowKey).Pairwise (fun x y : GoStr => strLt y x = false) :=
    (List.pairwise_map).mpr hs1
  have hs2' : (l2.map rowKey).Pairwise (fun x y : GoStr => strLt y x = false) :=
    (List.pairwise_map).mpr hs2
  haveI : IsAntisymm GoStr (fun x y : GoStr => strLt y x = false) :=
    ⟨fun a b hab hba => strLt_eq_false_antisymm a b hba hab⟩
  exact List.eq_of_perm_of_sorted hmk hs1' hs2'

/-- C2 witness: the two arrival orders' row lists are two legal
`sort.Slice` outcomes of the same generated rows; they are permutations of
each other and have the same identifier sequence. -/
theorem C2_sorted_key_sequence_witness :
    SortSliceOutcome (rowsArrivalA.getD []) (rowsArrivalA.getD []) ∧
    SortSliceOutcome (rowsArrivalA.getD []) (rowsArrivalB.getD []) ∧
    ((rowsArrivalA.getD []).Perm (rowsArrivalB.getD []) ∧
     (rowsArrivalA.getD []).map rowKey = (rowsArrivalB.getD []).map rowKey) := by
  have h1 : SortSliceOutcome (rowsArrivalA.getD []) (rowsArrivalA.getD []) := by
    constructor <;> decide
  have h2 : SortSliceOutcome (rowsArrivalA.getD []) (rowsArrivalB.getD []) := by
    constructor <;> decide
  exact ⟨h1, h2, C2_sorted_key_sequence (rowsArrivalA.getD []) (rowsArrivalA.getD [])
    (rowsArrivalB.getD []) h1 h2⟩

/-- C8: `HaversineDistance` (whose embedding fixes the Earth radius
6378100 meters and the meters-to-miles divisor 1609.344) vanishes on
identical points and is symmetric in its two points; being a total function
on `ℝ` it handles antipodal (and any other) inputs without raising. -/
theorem C8_haversine_zero_and_symm :
    (∀ lat lon : ℝ, HaversineDistance lat lon lat lon = 0) ∧
    (∀ lat1 lon1 lat2 lon2 : ℝ,
      HaversineDistance lat1 lon1 lat2 lon2 = HaversineDistance lat2 lon2 lat1 lon1) := by
  constructor
  · intro lat lon
    simp [HaversineDistance, hsin]
  · intro lat1 lon1 lat2 lon2
    have hswap : ∀ x y : ℝ, hsin (x - y) = hsin (y - x) := by
      intro x y
      unfold hsin
      rw [show (x - y) / 2 = -((y - x) / 2) by ring, Real.sin_neg, neg_sq]
    simp only [HaversineDistance]
    rw [hswap (lat2 * (Real.pi / 180)) (lat1 * (Real.pi / 180)),
      hswap (lon2 * (Real.pi / 180)) (lon1 * (Real.pi / 180)),
      mul_comm (Real.cos (lat1 * (Real.pi / 180))) (Real.cos (lat2 * (Real.pi / 180)))]

theorem latlon2coord_eq_some {s : GoStr} {p : GoStr × GoStr} :
    latlon2coord s = some p ↔
      (splitOnChar ',' s).get? 0 = some p.1 ∧ (splitOnChar ',' s).get? 1 = some p.2 := by
  unfold latlon2coord
  rcases e0 : (splitOnChar ',' s).get? 0 with _ | a <;>
    rcases e1 : (splitOnChar ',' s).get? 1 with _ | b <;>
      simp only [e0, e1] <;> simp [Prod.ext_iff, eq_comm]

/-- C3: for an error-free IPv4 record whose `loc` is the placeholder
`"37.7510,-97.8220"` or empty, every emitted row carries the `"N/A"`
sentinel for city, region, lat/lon and distance (the distance calculator is
skipped and no numeric distance can appear); for every other error-free
IPv4 record, the emitted rows' distance cell is the formatted output of the
distance calculation applied to the parsed self-location `loc` and the
record's parsed `loc`. -/
theorem C3_placeholder_vs_distance
    (fmtD : GoStr × GoStr → GoStr × GoStr → GoStr) (idx : HostMap) (loc : GoStr)
    (oneRow : Bool) (info : ipInfoResult)
    (herr : info.ErrMsg = none) (hip : containsChar ':' info.Ip = false) :
    ((info.Loc = "37.7510,-97.8220".data ∨ info.Loc = []) →
      recordRows fmtD idx loc oneRow info = some ((mapGet idx info.Ip).map fun h =>
        if oneRow then
          [h, info.Ip, info.Hostname, info.Org, "N/A".data, "N/A".data, info.Country,
           "N/A".data, "N/A".data]
        else
          [nlJoin2 h info.Ip, nlJoin2 info.Hostname info.Org,
           nlJoin3 "N/A".data "N/A".data info.Country, nlJoin2 "N/A".data "N/A".data,
           "N/A".data])) ∧
    (¬(info.Loc = "37.7510,-97.8220".data ∨ info.Loc = []) →
      ∀ rows, recordRows fmtD idx loc oneRow info = some rows →
        ∃ p1 p2, latlon2coord loc = some p1 ∧ latlon2coord info.Loc = some p2 ∧
          ∀ r ∈ rows, r.getLast? = some (fmtD p1 p2)) := by
  constructor
  · intro hp
    cases oneRow with
    | true => simp [recordRows, hip, herr, hp]
    | false => simp [recordRows, hip, herr, hp]
  · intro hnp rows hrows
    rcases hll : latlon2coord loc with _ | p1
    · rw [recordRows] at hrows
      simp [hip, herr, hnp, hll] at hrows
    · rcases hl2 : latlon2coord info.Loc with _ | p2
      · rw [recordRows] at hrows
        simp [hip, herr, hnp, hll, hl2] at hrows
      · obtain ⟨hg0, hg1⟩ := latlon2coord_eq_some.mp hl2
        refine ⟨p1, p2, rfl, rfl, ?_⟩
        intro r hr
        have hloc_ne : ¬ info.Loc = "N/A".data := by
          intro he
          rw [he] at hl2
          have hna : latlon2coord "N/A".data = none := by decide
          rw [hna] at hl2
          cases hl2
        rw [recordRows] at hrows
        simp only [hip, Bool.false_eq_true, if_false, herr, Option.isSome_none, hnp,
          hll, hl2, ne_eq, hloc_ne, not_false_eq_true, if_true] at hrows
        cases oneRow with
        | true =>
          rw [if_pos rfl] at hrows
          injection hrows with h
          subst h
          simp only [List.mem_map] at hr
          obtain ⟨hh, -, rfl⟩ := hr
          rfl
        | false =>
          rw [if_neg (by decide)] at hrows
          simp only [hg0, hg1] at hrows
          injection hrows with h
          subst h
          simp only [List.mem_map] at hr
          obtain ⟨hh, -, rfl⟩ := hr
          rfl

/-- C3 witness: a record located at the placeholder coordinate emits a row
whose city, region, lat/lon and distance cells are all `"N/A"`. -/
theorem C3_witness :
    ({ goodRecord with Loc := "37.7510,-97.8220".data } : ipInfoResult).ErrMsg = none ∧
    containsChar ':' ({ goodRecord with Loc := "37.7510,-97.8220".data } : ipInfoResult).Ip
      = false ∧
    recordRows fmtDistStub sharedHostIdx "5.0,6.0".data true
      { goodRecord with Loc := "37.7510,-97.8220".data } =
      some [["h.com".data, "9.9.9.9".data, "x".data, "o".data, "N/A".data, "N/A".data,
             "US".data, "N/A".data, "N/A".data]] := by
  refine ⟨rfl, by decide, ?_⟩
  have h := (C3_placeholder_vs_distance fmtDistStub sharedHostIdx "5.0,6.0".data true
    { goodRecord with Loc := "37.7510,-97.8220".data } rfl (by decide)).1 (Or.inl rfl)
  rw [h]
  decide

end IpInfo
